import Mathlib

set_option maxRecDepth 100000

/-!
Shallow embedding of the flask-umongorest resource layer
(src/flask_umongorest/resources.py and src/flask_umongorest/operators.py):
the filter compiler, ordering, pagination, query assembly, serialization
and update (dirty-field) engines, together with theorems about them.

Python dicts are modelled as association lists with insertion-order
iteration and overwrite-in-place assignment; a raised Python exception is
an Except.error carrying the message; strings are Lean strings and all
string algorithms (split, join, integer parsing) are given structurally
recursive implementations so that every definition evaluates.
-/

namespace FlaskUMongoRest

/-- Python dict.get over an association list (first binding wins; with
assocSet as the only writer keys are unique). -/
def lookupAssoc {α : Type} (l : List (String × α)) (k : String) : Option α :=
  match l with
  | [] => none
  | (k2, v) :: rest => if k2 = k then some v else lookupAssoc rest k

/-- Python dict assignment over an association list: overwrite the binding
in place if the key exists, otherwise append it. -/
def assocSet {α : Type} (l : List (String × α)) (k : String) (v : α) : List (String × α) :=
  match l with
  | [] => [(k, v)]
  | (k2, v2) :: rest => if k2 = k then (k, v) :: rest else (k2, v2) :: assocSet rest k v

/-- Remove duplicates keeping the first occurrence (models building a
Python set from a list, with a deterministic iteration order). -/
def dedupAux (seen : List String) : List String → List String
  | [] => []
  | x :: rest => if seen.contains x then dedupAux seen rest else x :: dedupAux (x :: seen) rest

def dedupKeep (l : List String) : List String := dedupAux [] l

/-- Python str.split(sep) for a one-character separator, on the character
list of the string. -/
def splitCharAux (sep : Char) (acc : List Char) : List Char → List String
  | [] => [String.mk acc.reverse]
  | c :: rest =>
    if c = sep then String.mk acc.reverse :: splitCharAux sep [] rest
    else splitCharAux sep (c :: acc) rest

/-- Python value.split(comma): used by the In operator, _fields,
_not_fields and _order_by handling. -/
def splitComma (cs : List Char) : List String := splitCharAux ',' [] cs

/-- Python key.split on a double underscore, scanning left to right
(so three underscores in a row split after the first two, as in Python). -/
def splitUUAux (acc : List Char) : List Char → List String
  | [] => [String.mk acc.reverse]
  | '_' :: '_' :: rest => String.mk acc.reverse :: splitUUAux [] rest
  | c :: rest => splitUUAux (c :: acc) rest

def splitUU (cs : List Char) : List String := splitUUAux [] cs

/-- Python double-underscore join of key parts. -/
def joinUU : List String → String
  | [] => ""
  | [s] => s
  | s :: rest => s ++ "__" ++ joinUU rest

def isDigitCh (c : Char) : Bool := decide ('0' ≤ c) && decide (c ≤ '9')

def digitsVal (acc : Nat) : List Char → Option Nat
  | [] => some acc
  | c :: rest =>
    if isDigitCh c then digitsVal (acc * 10 + (c.toNat - '0'.toNat)) rest else none

def digitsToNat : List Char → Option Nat
  | [] => none
  | cs => digitsVal 0 cs

/-- Parse an optionally signed decimal integer, Python int(str)-style
(whitespace stripping is not modelled; none of the claims involve it). -/
def intOfString (s : String) : Option Int :=
  match s.data with
  | '-' :: rest => (digitsToNat rest).map (fun n => -(n : Int))
  | '+' :: rest => (digitsToNat rest).map (fun n => (n : Int))
  | cs => (digitsToNat cs).map (fun n => (n : Int))

/-- Modelled from the spec: flask_umongorest.utils.isint is imported by
resources.py but utils.py is not among the sources.  Spec section 4.5
requires _skip and _limit to be integers when present, so the predicate
holds exactly when the raw string parses as a signed decimal integer. -/
def isint (s : String) : Bool := (intOfString s).isSome

/-- Python int(s), only evaluated on strings that passed isint. -/
def pyInt (s : String) : Int := (intOfString s).getD 0

/-- Python truthiness of an optional request-parameter string: None and
the empty string are falsy, every other string is truthy. -/
def pyTruthy : Option String → Bool
  | some s => !s.isEmpty
  | none => false

/-!  The operator layer (src/flask_umongorest/operators.py).  A produced
queryset kwarg is a pair of a field path and a Mongo filter value; every
sub-document built by the operators has exactly one key, so a one-key
document constructor suffices. -/

inductive MVal where
  | str : String → MVal
  | null : MVal
  | strList : List String → MVal
  | bool : Bool → MVal
  | doc1 : String → MVal → MVal
deriving DecidableEq

abbrev Fragment := String × MVal

/-- The value handed to an operator: either a string or Python None
(apply_filters normalizes the empty string to None before applying). -/
def mvalOf : Option String → MVal
  | some s => MVal.str s
  | none => MVal.null

/-- Operator.prepare_queryset_kwargs of the base class: wraps the value
in a dollar-prefixed operator document, under a $not document when
negated. -/
def basePrepare (op : String) (field : String) (value : Option String) (negate : Bool) : Fragment :=
  if negate then (field, MVal.doc1 "$not" (MVal.doc1 ("$" ++ op) (mvalOf value)))
  else (field, MVal.doc1 ("$" ++ op) (mvalOf value))

structure OperatorSpec where
  opName : String
  allowNegation : Bool
  /-- apply(field, value, negate); none models a raised Python exception. -/
  applyOp : String → Option String → Bool → Option Fragment

def mkBaseOp (op : String) (allowNeg : Bool) : OperatorSpec :=
  { opName := op, allowNegation := allowNeg,
    applyOp := fun f v n => some (basePrepare op f v n) }

def opNe (allowNeg : Bool) : OperatorSpec := mkBaseOp "ne" allowNeg
def opLt (allowNeg : Bool) : OperatorSpec := mkBaseOp "lt" allowNeg
def opLte (allowNeg : Bool) : OperatorSpec := mkBaseOp "lte" allowNeg
def opGt (allowNeg : Bool) : OperatorSpec := mkBaseOp "gt" allowNeg
def opGte (allowNeg : Bool) : OperatorSpec := mkBaseOp "gte" allowNeg

/-- Exact.prepare_queryset_kwargs: a bare value for equality, a $ne
document when negated (avoiding a regular-expression query). -/
def exactPrepare (field : String) (value : Option String) (negate : Bool) : Fragment :=
  if negate then (field, MVal.doc1 "$ne" (mvalOf value))
  else (field, mvalOf value)

def opExact (allowNeg : Bool) : OperatorSpec :=
  { opName := "exact", allowNegation := allowNeg,
    applyOp := fun f v n => some (exactPrepare f v n) }

/-- In.prepare_queryset_kwargs on a raw string value, exactly as the
source writes it: when the value contains a comma the value is split and
the key is the bare string nin or in; otherwise the key is the bare
string ne, or the empty string when not negated.  No dollar sign is
prepended (unlike the base class and Exact). -/
def inPrepare (field : String) (value : String) (negate : Bool) : Fragment :=
  if value.data.contains ',' then
    (field, MVal.doc1 (if negate then "nin" else "in") (MVal.strList (splitComma value.data)))
  else
    (field, MVal.doc1 (if negate then "ne" else "") (MVal.str value))

def opIn (allowNeg : Bool) : OperatorSpec :=
  { opName := "in", allowNegation := allowNeg,
    applyOp := fun f v n =>
      match v with
      | some s => some (inPrepare f s n)
      | none => none }
      -- a comma-membership test on Python None raises TypeError

/-- Boolean.prepare_queryset_kwargs: the literal string false maps to
False, anything else (including None) to True; negation flips it. -/
def booleanPrepare (field : String) (value : Option String) (negate : Bool) : Fragment :=
  let b := if value = some "false" then false else true
  (field, MVal.bool (if negate then !b else b))

def opBoolean (allowNeg : Bool) : OperatorSpec :=
  { opName := "exact", allowNegation := allowNeg,
    applyOp := fun f v n => some (booleanPrepare f v n) }

/-- Python str.format of an optional value (None renders as None). -/
def pyFormat : Option String → String
  | some s => s
  | none => "None"

/-- Startswith.prepare_queryset_kwargs: an anchored $regex document; the
negate argument is ignored by the source. -/
def startswithPrepare (field : String) (value : Option String) (_negate : Bool) : Fragment :=
  (field, MVal.doc1 "$regex" (MVal.str ("^" ++ pyFormat value)))

def opStartswith (allowNeg : Bool) : OperatorSpec :=
  { opName := "startswith", allowNegation := allowNeg,
    applyOp := fun f v n => some (startswithPrepare f v n) }

/-!  The Resource configuration (class attributes of Resource in
resources.py) and the tables its constructor compiles from them.  The
embedding covers resources without a uri_prefix (the default, None: the
URI-to-id extraction branch of apply_filters is never taken) and without
child document resources (no sub-resource delegation). -/

structure Resource where
  /-- Declared filters: field name to list of operator instances. -/
  filters : List (String × List OperatorSpec) := []
  /-- rename_fields: underlying field name to its public API name. -/
  renameFields : List (String × String) := []
  allowedOrdering : List String := []
  paginate : Bool := true
  defaultLimit : Int := 100
  maxLimit : Int := 100
  bulkUpdateLimit : Int := 1000

/-- The inverse rename map built in Resource.__init__: public name back
to the underlying field name. -/
def reverseRename (R : Resource) : List (String × String) :=
  R.renameFields.foldl (fun acc kv => assocSet acc kv.2 kv.1) []

/-- get_filters: compile each declared operator list into a suffix table;
an operator named exact is additionally registered under the empty
suffix. -/
def buildFieldFilters (ops : List OperatorSpec) : List (String × OperatorSpec) :=
  ops.foldl (fun acc op =>
    let acc2 := if op.opName = "exact" then assocSet acc "" op else acc
    assocSet acc2 op.opName op) []

/-- The _filters table built in Resource.__init__. -/
def compiledFilters (R : Resource) : List (String × List (String × OperatorSpec)) :=
  R.filters.map (fun fo => (fo.1, buildFieldFilters fo.2))

/-- The greedy longest-prefix scan of apply_filters: try the join of the
first i key parts for i from the full length down to one and return the
first declared field found, together with its suffix table and the
remaining parts.  A field whose compiled suffix table is empty is falsy
in Python and is passed over exactly like an undeclared one (and if the
scan ends on it, the subsequent operator lookup in the empty table fails
and the parameter is skipped), so the embedding folds that case into
not-found. -/
def findDeclaredField (tbl : List (String × List (String × OperatorSpec)))
    (parts : List String) : Nat → Option (String × List (String × OperatorSpec) × List String)
  | 0 => none
  | j + 1 =>
    match lookupAssoc tbl (joinUU (parts.take (j + 1))) with
    | some ops =>
      if ops.isEmpty then findDeclaredField tbl parts j
      else some (joinUU (parts.take (j + 1)), ops, parts.drop (j + 1))
    | none => findDeclaredField tbl parts j

/-- apply_filters, per-key parsing: longest-prefix field match, then an
operator suffix if the last remaining part names one, then a trailing
not modifier.  Returns the matched field, its suffix table, the operator
name, the negate flag and the leftover parts (a nested lookup path). -/
def parseParamKey (R : Resource) (key : String) :
    Option (String × List (String × OperatorSpec) × String × Bool × List String) :=
  let parts := splitUU key.data
  match findDeclaredField (compiledFilters R) parts (parts.length + 1) with
  | none => none
  | some (field, allowed, parts0) =>
    let st1 : String × List String :=
      match parts0.getLast? with
      | some lastPart =>
        if (lookupAssoc allowed lastPart).isSome then (lastPart, parts0.dropLast)
        else ("", parts0)
      | none => ("", parts0)
    let st2 : Bool × List String :=
      match st1.2.getLast? with
      | some l2 => if l2 = "not" then (true, st1.2.dropLast) else (false, st1.2)
      | none => (false, st1.2)
    some (field, allowed, st1.1, st2.1, st2.2)

/-- apply_filters value normalization: the empty string becomes None and
a literal pair of quote characters becomes the empty string. -/
def normalizeValue (v : String) : Option String :=
  if v = "" then none
  else if v = "\"\"" ∨ v = String.mk [Char.ofNat 39, Char.ofNat 39] then some ""
  else some v

/-- One iteration of the apply_filters loop for a single raw parameter:
Except.ok none means the parameter was skipped by a continue, Except.ok
(some fragment) that it compiled, and Except.error that the operator
application raised. -/
def compileParam (R : Resource) (key : String) (value : String) :
    Except String (Option Fragment) :=
  let value1 := normalizeValue value
  match parseParamKey R key with
  | none => Except.ok none
  | some (field, allowed, opName, negate, parts2) =>
    match lookupAssoc allowed opName with
    | none => Except.ok none
    | some op =>
      if negate && !op.allowNegation then Except.ok none
      else
        let field2 := if parts2.isEmpty then field else field ++ "__" ++ joinUU parts2
        let field3 := (lookupAssoc (reverseRename R) field2).getD field2
        match op.applyOp field3 value1 negate with
        | some frag => Except.ok (some frag)
        | none => Except.error "TypeError"

/-- The filter returned by apply_filters: an empty dict, or the produced
fragments under a $and key. -/
inductive FilterOut where
  | empty : FilterOut
  | andFrags : List Fragment → FilterOut
deriving DecidableEq

def collectFilters (R : Resource) : List (String × String) → Except String (List Fragment)
  | [] => Except.ok []
  | (k, v) :: rest => do
    let f? ← compileParam R k v
    let restF ← collectFilters R rest
    match f? with
    | some f => Except.ok (f :: restF)
    | none => Except.ok restF

def mkFilterOut (l : List Fragment) : FilterOut :=
  if l.isEmpty then FilterOut.empty else FilterOut.andFrags l

/-- Resource.apply_filters over the request parameters. -/
def applyFilters (R : Resource) (params : List (String × String)) : Except String FilterOut := do
  let frags ← collectFilters R params
  Except.ok (mkFilterOut frags)

/-- Resource.apply_ordering: honored only when allowed_ordering is a
nonempty list containing the whole _order_by value; the value is then
split on commas and each part mapped through the inverse rename map. -/
def applyOrdering (R : Resource) (params : List (String × String)) : Option (List String) :=
  match lookupAssoc params "_order_by" with
  | some s =>
    if !R.allowedOrdering.isEmpty && R.allowedOrdering.contains s then
      some ((splitComma s.data).map (fun p => (lookupAssoc (reverseRename R) p).getD p))
    else none
  | none => none

def errLimitNotInt (s : String) : String :=
  "_limit must be an integer (got \"" ++ s ++ "\" instead)."

def errSkipNotInt (s : String) : String :=
  "_skip must be an integer (got \"" ++ s ++ "\" instead)."

def errLimitTooLarge (maxLimit : Int) : String :=
  "The limit you set is larger than the maximum limit for this resource (max_limit = " ++ toString maxLimit ++ ")."

def errSkipNegative (s : String) : String :=
  "_skip must be a non-negative integer (got \"" ++ s ++ "\" instead)."

/-- Resource.get_skip_and_limit.  With pagination on: _limit and _skip
must parse as integers when present; a truthy _limit above max_limit and
a truthy negative _skip raise; the returned limit is the minimum of the
requested (or default) limit and max_limit; the returned skip defaults
to zero.  With pagination off the params are not consulted at all and
(0, max_limit) is returned. -/
def getSkipAndLimit (R : Resource) (params : List (String × String)) : Except String (Int × Int) :=
  if R.paginate then
    let limS := lookupAssoc params "_limit"
    let skipS := lookupAssoc params "_skip"
    if limS.isSome && !(isint (limS.getD "")) then
      Except.error (errLimitNotInt (limS.getD ""))
    else if skipS.isSome && !(isint (skipS.getD "")) then
      Except.error (errSkipNotInt (skipS.getD ""))
    else if pyTruthy limS && decide (pyInt (limS.getD "") > R.maxLimit) then
      Except.error (errLimitTooLarge R.maxLimit)
    else if pyTruthy skipS && decide (pyInt (skipS.getD "") < 0) then
      Except.error (errSkipNegative (skipS.getD ""))
    else
      Except.ok ((match skipS with | some s => pyInt s | none => 0),
                 min (match limS with | some s => pyInt s | none => R.defaultLimit) R.maxLimit)
  else
    Except.ok (0, R.maxLimit)

/-!  Query assembly (Resource.get_objects). -/

/-- Modelled from the spec: methods.py is imported by resources.py but is
not among the sources.  The spec's RequestContext distinguishes the
create / update / bulk-update mutation modes and get_objects only tests
identity with methods.BulkUpdate, so the model keeps a bulk-update marker
and lumps every other view method (including None) into normal. -/
inductive ViewMethod where
  | normal : ViewMethod
  | bulkUpdate : ViewMethod
deriving DecidableEq

/-- The external document store (spec section 6): find gives the rows
matching a filter, sort reorders rows (a permutation, witnessed by its
length invariant).  Cursor count() counts the matching rows independently
of skip and limit, so it is the length of the find result. -/
structure Store (Row : Type) where
  matching : FilterOut → List Row
  sortBy : List String → List Row → List Row
  sortBy_length : ∀ o l, (sortBy o l).length = l.length

/-- pymongo cursor.skip: only reached with a non-negative argument
(get_skip_and_limit validates _skip and defaults it to zero). -/
def pySkip {Row : Type} (n : Int) (l : List Row) : List Row := l.drop n.toNat

/-- pymongo cursor.limit: zero means no limit, a negative limit caps the
result at its absolute value. -/
def pyLimit {Row : Type} (n : Int) (l : List Row) : List Row :=
  if n = 0 then l else l.take n.natAbs

def errBulkLimit (n : Int) : String :=
  "It's not allowed to update more than " ++ toString n ++ " objects at once"

def sortedRows {Row : Type} (store : Store Row) (order : Option (List String)) (found : List Row) : List Row :=
  match order with
  | some o => store.sortBy o found
  | none => found

/-- The body of Resource.get_objects once apply_filters has produced the
query filter.  The cursor is evaluated with the store's semantics: sort,
then skip, then limit (the source chains .skip(...).limit(...).sort(...)
on the cursor, which only sets options; the store applies them in query
order).  get_objects performs no writes: in bulk mode the rows are
fetched, counted against the bulk cap, and the ValidationError is
returned before any object is handed to the update phase. -/
def getObjectsCore {Row : Type} (R : Resource) (method : ViewMethod) (store : Store Row)
    (params : List (String × String)) (f : FilterOut) :
    Except String (List Row × Option Bool × Nat) :=
  let found := store.matching f
  let sorted := sortedRows store (applyOrdering R params) found
  match method with
  | ViewMethod.bulkUpdate =>
    let limit := R.bulkUpdateLimit
    let objs := pyLimit limit sorted
    let count := found.length
    if (objs.length : Int) ≥ limit then Except.error (errBulkLimit limit)
    else Except.ok (objs, none, count)
  | ViewMethod.normal =>
    match getSkipAndLimit R params with
    | Except.error e => Except.error e
    | Except.ok sl =>
      let objs0 := pyLimit (sl.2 + 1) (pySkip sl.1 sorted)
      let count := found.length
      if R.paginate then
        let hasMore := decide ((objs0.length : Int) > sl.2)
        Except.ok ((if hasMore then objs0.dropLast else objs0), some hasMore, count)
      else
        Except.ok (objs0, none, count)

/-- Resource.get_objects. -/
def getObjects {Row : Type} (R : Resource) (method : ViewMethod) (store : Store Row)
    (params : List (String × String)) : Except String (List Row × Option Bool × Nat) := do
  let f ← applyFilters R params
  getObjectsCore R method store params f

/-- The request parameters with the pagination keys removed (used to
state that bulk fetches and unpaginated fetches ignore them). -/
def erasePagingParams (params : List (String × String)) : List (String × String) :=
  params.filter (fun kv => !(kv.1 = "_skip" || kv.1 = "_limit"))

/-!  Serialization (Resource.serialize, get_requested_fields,
get_field_value, value_for_field).  Documents are association lists of
scalar values; serialize_field_value returns a scalar value unchanged
(the reference / list / dict / callable dispatch of that method is not
needed by the claims, which are about field resolution and its error
handling). -/

inductive Val where
  | vnull : Val
  | vstr : String → Val
  | vint : Int → Val
  | vref : Int → Val
deriving DecidableEq

abbrev SObj := List (String × Val)

/-- The serialization-relevant resource configuration: declared and
optional fields, the rename map, resource attributes that are callable
(computed fields), and the value_for_field fallback (the base class
raises UnknownFieldError, modelled as the constantly-none function). -/
structure SResource where
  fields : List String
  optionalFields : List String := []
  renameFields : List (String × String) := []
  computedFields : List (String × (SObj → Val)) := []
  valueForField : SObj → String → Option Val := fun _ _ => none

def sReverseRename (R : SResource) : List (String × String) :=
  R.renameFields.foldl (fun acc kv => assocSet acc kv.2 kv.1) []

/-- Resource.get_field_value at the top level of serialize: getattr on
the object, raising UnknownFieldError (the error case) when the
attribute is missing; a present scalar value serializes to itself. -/
def getFieldValue (obj : SObj) (fieldName : String) : Except Unit Val :=
  match lookupAssoc obj fieldName with
  | some v => Except.ok v
  | none => Except.error ()

/-- One iteration of the serialize field loop: a callable resource
attribute wins, otherwise get_field_value, otherwise the value_for_field
fallback; none means the field is silently omitted. -/
def serializeOne (R : SResource) (obj : SObj) (field : String) : Option (String × Val) :=
  let renamedField := (lookupAssoc R.renameFields field).getD field
  match lookupAssoc R.computedFields field with
  | some fn => some (renamedField, fn obj)
  | none =>
    match getFieldValue obj field with
    | Except.ok v => some (renamedField, v)
    | Except.error _ =>
      match R.valueForField obj field with
      | some v => some (renamedField, v)
      | none => none

def serializeFieldsAux (R : SResource) (obj : SObj) (acc : List (String × Val)) :
    List String → List (String × Val)
  | [] => acc
  | f :: rest =>
    match serializeOne R obj f with
    | some kv => serializeFieldsAux R obj (assocSet acc kv.1 kv.2) rest
    | none => serializeFieldsAux R obj acc rest

/-- The serialize field loop: fill the data dict field by field. -/
def serializeFields (R : SResource) (obj : SObj) (fields : List String) : List (String × Val) :=
  serializeFieldsAux R obj [] fields

/-- A field the serialize loop can resolve: a callable resource
attribute, an attribute of the object, or a value_for_field fallback. -/
def fieldResolvable (R : SResource) (obj : SObj) (field : String) : Bool :=
  (lookupAssoc R.computedFields field).isSome
  || (lookupAssoc obj field).isSome
  || (R.valueForField obj field).isSome

/-- Python list.remove: drop the first occurrence, ValueError if absent. -/
def pyRemoveFirst (l : List String) (x : String) : Except String (List String) :=
  match l with
  | [] => Except.error "ValueError: list.remove(x): x not in list"
  | y :: rest =>
    if y = x then Except.ok rest
    else do
      let r ← pyRemoveFirst rest x
      Except.ok (y :: r)

def removeNotFields (cur : List String) : List String → Except String (List String)
  | [] => Except.ok cur
  | nf :: rest => do
    let cur2 ← pyRemoveFirst cur nf
    removeNotFields cur2 rest

def tyErrNoneIterable : String :=
  "TypeError: argument of type NoneType is not iterable"

/-- Resource.get_requested_fields.  The params argument is the optional
params keyword of serialize; fieldsKw the optional fields keyword.  The
_fields selection is guarded by the truthiness of params, but the final
_not_fields membership test runs on params unconditionally, so a missing
or None params raises TypeError there (Python sets are modelled as
first-occurrence-deduplicated lists for a deterministic order). -/
def getRequestedFields (R : SResource) (fieldsKw : Option (List String))
    (params : Option (List (String × String))) : Except String (List String) :=
  let fieldsPair : List String × List String :=
    match fieldsKw with
    | some fs => (fs, dedupKeep fs)
    | none => (R.fields, dedupKeep (R.fields ++ R.optionalFields))
  let onlyFields : Option (List String) :=
    match params with
    | some p =>
      if !p.isEmpty then
        match lookupAssoc p "_fields" with
        | some s => some (dedupKeep (splitComma s.data))
        | none => none
      else none
    | none => none
  let includeAll := match onlyFields with
    | some ofs => ofs.contains "_all"
    | none => false
  let requested : List String :=
    match onlyFields with
    | none => fieldsPair.1
    | some ofs =>
      if includeAll then fieldsPair.2
      else ofs.filterMap (fun fl =>
        let actual := (lookupAssoc (sReverseRename R) fl).getD fl
        if fieldsPair.2.contains actual then some actual else none)
  match params with
  | none => Except.error tyErrNoneIterable
  | some p =>
    match lookupAssoc p "_not_fields" with
    | some s => removeNotFields requested (splitComma s.data)
    | none => Except.ok requested

/-- Resource.serialize for an optional (possibly falsy) object, for
resources without sub-resource delegation: a falsy object serializes to
the empty dict, otherwise the requested fields are resolved and the data
dict is filled. -/
def serializeObj (R : SResource) (obj? : Option SObj) (fieldsKw : Option (List String))
    (params : Option (List (String × String))) : Except String (List (String × Val)) :=
  match obj? with
  | none => Except.ok []
  | some obj => do
    let requested ← getRequestedFields R fieldsKw params
    Except.ok (serializeFields R obj requested)

/-!  The update engine (Resource.update_object, get_object_dict). -/

/-- An existing document as update_object sees it: its attribute values,
the raw _db_data mapping (which for reference fields holds the stored
reference), the set of fields declared as ReferenceField, and whether
the object has a _db_data attribute at all. -/
structure UObj where
  vals : List (String × Val)
  dbData : List (String × Val)
  refFields : List String
  hasDbData : Bool := true
deriving DecidableEq

def truthyVal : Val → Bool
  | Val.vnull => false
  | Val.vstr s => !s.isEmpty
  | Val.vint n => n ≠ 0
  | Val.vref _ => true

/-- getattr(db_val, id, db_val): a reference exposes its id, any other
value falls back to itself. -/
def valId : Val → Val
  | Val.vref pk => Val.vint pk
  | v => v

/-- getattr(value, pk, value): same for the incoming value. -/
def valPk : Val → Val
  | Val.vref pk => Val.vint pk
  | v => v

/-- Modelled from the spec: flask_umongorest.utils.equal is imported by
resources.py but utils.py is not among the sources.  Spec section 4.4
step 5 compares each candidate field's new value against the object's
current value, so equality of modelled values is used. -/
def equal (a b : Val) : Bool := a = b

/-- The per-field comparison of update_object: reference-typed fields of
an object with _db_data are compared by id without touching the store;
every other field by value against getattr(obj, field). -/
def fieldNeedsUpdate (obj : UObj) (field : String) (value : Val) : Bool :=
  if obj.hasDbData && obj.refFields.contains field then
    let dbVal := (lookupAssoc obj.dbData field).getD Val.vnull
    let idFromObj := if truthyVal dbVal then valId dbVal else dbVal
    let idFromData := if truthyVal value then valPk value else value
    !(idFromObj = idFromData : Bool)
  else
    !(equal ((lookupAssoc obj.vals field).getD Val.vnull) value)

def setVal (obj : UObj) (field : String) (v : Val) : UObj :=
  { obj with vals := assocSet obj.vals field v }

def updateObjectLoop : UObj → List String → List (String × Val) → UObj × List String
  | obj, dirty, [] => (obj, dirty)
  | obj, dirty, (f, v) :: rest =>
    if fieldNeedsUpdate obj f v then
      updateObjectLoop (setVal obj f v) (dirty ++ [f]) rest
    else
      updateObjectLoop obj dirty rest

/-- Resource.update_object on the candidate update dict: walk the
candidates, apply and record exactly the fields the comparison flags. -/
def updateObject (obj : UObj) (updateDict : List (String × Val)) : UObj × List String :=
  updateObjectLoop obj [] updateDict

/-- Resource.get_object_dict: restrict the cleaned data to declared
document fields and, for updates, further to the fields present in the
raw request payload (renamed back to their underlying names). -/
def getObjectDict (docFields : List String) (revRenameMap : List (String × String))
    (data : List (String × Val)) (rawKeys : List String) (update : Bool) : List (String × Val) :=
  let filterFields :=
    if update then
      docFields.filter (fun fl =>
        (rawKeys.map (fun k => (lookupAssoc revRenameMap k).getD k)).contains fl)
    else docFields
  data.filter (fun kv => filterFields.contains kv.1)

/-- A raw filter parameter the apply_filters loop skips with a continue:
its key matches no declared field under the greedy longest-prefix scan,
or the resolved (field, suffix) pair has no registered operator, or it
requests negation of an operator that disallows negation. -/
def skipsParam (R : Resource) (key : String) : Bool :=
  match parseParamKey R key with
  | none => true
  | some (_, allowed, opName, negate, _) =>
    match lookupAssoc allowed opName with
    | none => true
    | some op => negate && !op.allowNegation

/-- The fragment a compiled parameter contributed (none for skipped or
failed parameters). -/
def okFrag : Except String (Option Fragment) → Option Fragment
  | Except.ok o => o
  | Except.error _ => none

/-!  Concrete fixtures used by the witness and counterexample theorems. -/

/-- A store of four rows matching every filter, with trivial sorting. -/
def storeFix : Store Nat :=
  { matching := fun _ => [0, 1, 2, 3],
    sortBy := fun _ l => l,
    sortBy_length := fun _ _ => rfl }

/-- A resource with all class defaults. -/
def resFix : Resource := {}

/-- A resource with a bulk-update cap of two. -/
def resBulk2 : Resource := { bulkUpdateLimit := 2 }

/-- A resource with a bulk-update cap of ten. -/
def resBulk10 : Resource := { bulkUpdateLimit := 10 }

/-- A resource with pagination disabled and a max limit of two. -/
def resNoPag : Resource := { paginate := false, maxLimit := 2 }

/-- A resource declaring firstname with Exact and Ne and age with only
Gte (so age has no empty-suffix operator). -/
def res5 : Resource :=
  { filters := [("firstname", [opExact false, opNe false]), ("age", [opGte false])] }

/-- A resource allowing ordering by the public name date of the
underlying field date_internal. -/
def res7 : Resource :=
  { allowedOrdering := ["date"], renameFields := [("date_internal", "date")] }

/-- A serialization resource: name is renamed to title, and extra has a
value_for_field fallback. -/
def sresFix : SResource :=
  { fields := ["name", "age", "extra"],
    renameFields := [("name", "title")],
    valueForField := fun _ fl => if fl = "extra" then some (Val.vstr "fallback") else none }

/-- An existing document with a scalar field and a reference field. -/
def uobjFix : UObj :=
  { vals := [("a", Val.vint 1), ("r", Val.vref 5)],
    dbData := [("a", Val.vint 1), ("r", Val.vref 5)],
    refFields := ["r"] }

/-!  Theorems. -/

/-- C10: get_requested_fields (and therefore serialize of a non-null
object without sub-resource delegation) requires a params mapping: when
the params keyword argument is absent or None, the unconditional
_not_fields membership test on params raises a TypeError instead of
returning the resource's default field list, so field selection with no
parameters at all is not a supported call at this interface. -/
theorem c10_params_required :
    ∀ (R : SResource) (fieldsKw : Option (List String)),
      getRequestedFields R fieldsKw none = Except.error tyErrNoneIterable
      ∧ ∀ obj : SObj, serializeObj R (some obj) fieldsKw none = Except.error tyErrNoneIterable := by
  intro R fk
  exact ⟨rfl, fun _ => rfl⟩

/-- C7: ordering is applied only when the whole requested _order_by
value is in the resource's allowed-ordering list; the value is then split
on commas and each part mapped back through the reverse rename map to
its underlying name; a request whose ordering is not allowed, or with no
_order_by at all, results in no ordering being applied, never an error
(apply_ordering is a total function into Option). -/
theorem c7_ordering_allowed_list (R : Resource) (params : List (String × String)) :
    (∀ s, lookupAssoc params "_order_by" = some s → s ∈ R.allowedOrdering →
      applyOrdering R params =
        some ((splitComma s.data).map (fun p => (lookupAssoc (reverseRename R) p).getD p)))
    ∧ (∀ s, lookupAssoc params "_order_by" = some s → s ∉ R.allowedOrdering →
      applyOrdering R params = none)
    ∧ (lookupAssoc params "_order_by" = none → applyOrdering R params = none) := by
  refine ⟨?_, ?_, ?_⟩
  · intro s hs hmem
    have hne : R.allowedOrdering ≠ [] := by
      intro h
      rw [h] at hmem
      exact (List.not_mem_nil s) hmem
    simp [applyOrdering, hs, hmem, List.isEmpty_iff, hne]
  · intro s hs hmem
    simp [applyOrdering, hs, hmem]
  · intro hs
    simp [applyOrdering, hs]

/-- C7 witness: on res7, ordering by the allowed public name date maps
to the underlying date_internal; a disallowed value or a missing
_order_by yields no ordering. -/
theorem c7_ordering_allowed_list_witness :
    applyOrdering res7 [("_order_by", "date")] = some ["date_internal"]
    ∧ applyOrdering res7 [("_order_by", "nope")] = none
    ∧ applyOrdering res7 [] = none := by
  refine ⟨?_, ?_, ?_⟩
  · exact (c7_ordering_allowed_list res7 [("_order_by", "date")]).1 "date" rfl (by decide)
  · exact (c7_ordering_allowed_list res7 [("_order_by", "nope")]).2.1 "nope" rfl (by decide)
  · exact (c7_ordering_allowed_list res7 []).2.2 rfl

/-- C3 (code-bug exhibit): the In operator emits its fragments under the
bare keys in, nin, ne and the empty string, without the dollar prefix
every other operator of the registry uses; in particular its degraded
equality case produces a one-key sub-document keyed by the empty string
rather than the bare-value equality fragment Exact produces, so none of
its four shapes is the set-membership, set-exclusion, equality or
not-equals fragment the spec describes. -/
theorem c3_in_operator_missing_dollar :
    inPrepare "x" "a" false = ("x", MVal.doc1 "" (MVal.str "a"))
    ∧ exactPrepare "x" (some "a") false = ("x", MVal.str "a")
    ∧ inPrepare "x" "a" false ≠ exactPrepare "x" (some "a") false
    ∧ inPrepare "x" "a" true = ("x", MVal.doc1 "ne" (MVal.str "a"))
    ∧ exactPrepare "x" (some "a") true = ("x", MVal.doc1 "$ne" (MVal.str "a"))
    ∧ inPrepare "x" "a,b" false = ("x", MVal.doc1 "in" (MVal.strList ["a", "b"]))
    ∧ inPrepare "x" "a,b" true = ("x", MVal.doc1 "nin" (MVal.strList ["a", "b"]))
    ∧ basePrepare "in" "x" (some "a") false = ("x", MVal.doc1 "$in" (MVal.str "a")) := by
  refine ⟨rfl, rfl, ?_, rfl, rfl, rfl, rfl, rfl⟩
  decide

/-- C6 counterexample: a present negative _limit is accepted without any
ValidationError and passed through, so get_skip_and_limit does not
require _limit to be non-negative. -/
theorem c6_cx_negative_limit_accepted :
    getSkipAndLimit resFix [("_limit", "-5")] = Except.ok (0, -5)
    ∧ pyInt "-5" < 0 := by
  exact ⟨rfl, by decide⟩

/-- C6 as amended: with pagination on, a non-integer _limit or _skip
raises a ValidationError naming the offending parameter; a truthy
_limit above max_limit raises a ValidationError mentioning the max
limit; a truthy negative _skip raises; but the non-negativity of _limit
is not validated (a negative _limit passes through, see the
counterexample). -/
theorem c6_amended_validation (R : Resource) (params : List (String × String))
    (hp : R.paginate = true) :
    (∀ s, lookupAssoc params "_limit" = some s → isint s = false →
      getSkipAndLimit R params = Except.error (errLimitNotInt s))
    ∧ (∀ s, (∀ t, lookupAssoc params "_limit" = some t → isint t = true) →
      lookupAssoc params "_skip" = some s → isint s = false →
      getSkipAndLimit R params = Except.error (errSkipNotInt s))
    ∧ (∀ s, (∀ t, lookupAssoc params "_skip" = some t → isint t = true) →
      lookupAssoc params "_limit" = some s → isint s = true →
      pyTruthy (some s) = true → pyInt s > R.maxLimit →
      getSkipAndLimit R params = Except.error (errLimitTooLarge R.maxLimit))
    ∧ (∀ s, (∀ t, lookupAssoc params "_limit" = some t →
        isint t = true ∧ (pyTruthy (some t) && decide (pyInt t > R.maxLimit)) = false) →
      lookupAssoc params "_skip" = some s → isint s = true →
      pyTruthy (some s) = true → pyInt s < 0 →
      getSkipAndLimit R params = Except.error (errSkipNegative s)) := by
  refine ⟨?_, ?_, ?_, ?_⟩
  · intro s hs hint
    simp [getSkipAndLimit, hp, hs, hint]
  · intro s hlim hs hint
    simp only [getSkipAndLimit, hp, if_true]
    cases hl : lookupAssoc params "_limit" with
    | none => simp [hl, hs, hint]
    | some t =>
      have := hlim t hl
      simp [hl, hs, hint, this]
  · intro s hskip hl hint htr hgt
    simp only [getSkipAndLimit, hp, if_true]
    cases hsk : lookupAssoc params "_skip" with
    | none =>
      simp [hl, hsk, hint, htr, hgt]
    | some t =>
      have := hskip t hsk
      simp [hl, hsk, hint, this, htr, hgt]
  · intro s hlim hs hint htr hlt
    have hse : s.isEmpty = false := by simpa [pyTruthy] using htr
    simp only [getSkipAndLimit, hp, if_true]
    cases hl : lookupAssoc params "_limit" with
    | none =>
      simp [hl, hs, hint, htr, hlt, hse, pyTruthy]
    | some t =>
      have ht := hlim t hl
      simp [hl, hs, hint, ht.1, ht.2, htr, hlt, hse]

/-- C6 amended witness: the four validation errors at concrete inputs,
including the spec scenario of _limit exceeding max_limit 100. -/
theorem c6_amended_validation_witness :
    getSkipAndLimit resFix [("_limit", "abc")] = Except.error (errLimitNotInt "abc")
    ∧ getSkipAndLimit resFix [("_skip", "xy")] = Except.error (errSkipNotInt "xy")
    ∧ getSkipAndLimit resFix [("_limit", "10000")] = Except.error (errLimitTooLarge 100)
    ∧ getSkipAndLimit resFix [("_skip", "-1")] = Except.error (errSkipNegative "-1") := by
  refine ⟨?_, ?_, ?_, ?_⟩
  · exact (c6_amended_validation resFix _ rfl).1 "abc" rfl (by decide)
  · exact (c6_amended_validation resFix _ rfl).2.1 "xy"
      (fun t ht => Option.noConfusion ht) rfl (by decide)
  · exact (c6_amended_validation resFix _ rfl).2.2.1 "10000"
      (fun t ht => Option.noConfusion ht) rfl (by decide) (by decide) (by decide)
  · exact (c6_amended_validation resFix _ rfl).2.2.2 "-1"
      (fun t ht => Option.noConfusion ht) rfl (by decide) (by decide) (by decide)

theorem serializeOne_isSome (R : SResource) (obj : SObj) (f : String) :
    (serializeOne R obj f).isSome = fieldResolvable R obj f := by
  unfold serializeOne fieldResolvable getFieldValue
  cases lookupAssoc R.computedFields f with
  | some fn => simp
  | none =>
    cases lookupAssoc obj f with
    | some v => simp
    | none =>
      cases R.valueForField obj f with
      | some v => simp
      | none => simp

theorem serializeFieldsAux_filter (R : SResource) (obj : SObj) :
    ∀ (fs : List String) (acc : List (String × Val)),
      serializeFieldsAux R obj acc fs =
        serializeFieldsAux R obj acc (fs.filter (fieldResolvable R obj)) := by
  intro fs
  induction fs with
  | nil => intro acc; rfl
  | cons f rest ih =>
    intro acc
    by_cases hr : fieldResolvable R obj f = true
    · have hsome : (serializeOne R obj f).isSome = true := by
        rw [serializeOne_isSome, hr]
      cases hso : serializeOne R obj f with
      | none => rw [hso] at hsome; simp at hsome
      | some kv =>
        simp only [List.filter_cons, hr, if_true, serializeFieldsAux, hso]
        exact ih (assocSet acc kv.1 kv.2)
    · have hnone : serializeOne R obj f = none := by
        have : (serializeOne R obj f).isSome = false := by
          rw [serializeOne_isSome]
          exact Bool.of_not_eq_true hr
        exact Option.not_isSome_iff_eq_none.mp (by simp [this])
      have hrf : fieldResolvable R obj f = false := Bool.of_not_eq_true hr
      simp only [List.filter_cons, hrf, Bool.false_eq_true, if_false, serializeFieldsAux, hnone]
      exact ih acc

/-- C9: a requested field that is declared on the resource but absent
from the object goes through the value_for_field fallback; when the
fallback also fails with an unknown-field error the field is silently
omitted and serialization of the remaining fields completes (the output
equals the output for the resolvable fields alone, and the field loop is
a total function: nothing is raised to the caller). -/
theorem c9_missing_field_omitted :
    ∀ (R : SResource) (obj : SObj) (fs : List String),
      serializeFields R obj fs = serializeFields R obj (fs.filter (fieldResolvable R obj))
      ∧ (∀ f, fieldResolvable R obj f = false → serializeOne R obj f = none)
      ∧ (∀ f v, lookupAssoc R.computedFields f = none → lookupAssoc obj f = none →
          R.valueForField obj f = some v →
          serializeOne R obj f = some ((lookupAssoc R.renameFields f).getD f, v)) := by
  intro R obj fs
  refine ⟨serializeFieldsAux_filter R obj fs [], ?_, ?_⟩
  · intro f hf
    have : (serializeOne R obj f).isSome = false := by rw [serializeOne_isSome, hf]
    exact Option.not_isSome_iff_eq_none.mp (by simp [this])
  · intro f v hc ho hv
    unfold serializeOne getFieldValue
    rw [hc, ho, hv]

/-- C9 witness: on sresFix, the field age is absent from the object and
has no fallback, so it is omitted and the remaining fields serialize;
extra is absent but resolved by the fallback. -/
theorem c9_missing_field_omitted_witness :
    serializeFields sresFix [("name", Val.vstr "n")] ["name", "age", "extra"] =
      serializeFields sresFix [("name", Val.vstr "n")]
        (["name", "age", "extra"].filter (fieldResolvable sresFix [("name", Val.vstr "n")]))
    ∧ serializeOne sresFix [("name", Val.vstr "n")] "age" = none
    ∧ serializeOne sresFix [("name", Val.vstr "n")] "extra" = some ("extra", Val.vstr "fallback") := by
  refine ⟨(c9_missing_field_omitted sresFix [("name", Val.vstr "n")] ["name", "age", "extra"]).1,
    (c9_missing_field_omitted sresFix [("name", Val.vstr "n")] ["name", "age", "extra"]).2.1
      "age" (by decide), ?_⟩
  exact (c9_missing_field_omitted sresFix [("name", Val.vstr "n")] ["name", "age", "extra"]).2.2
    "extra" (Val.vstr "fallback") rfl rfl rfl

theorem lookupAssoc_assocSet_self {α : Type} (l : List (String × α)) (k : String) (v : α) :
    lookupAssoc (assocSet l k v) k = some v := by
  induction l with
  | nil => simp [assocSet, lookupAssoc]
  | cons kv rest ih =>
    obtain ⟨k2, v2⟩ := kv
    by_cases h : k2 = k
    · simp [assocSet, h, lookupAssoc]
    · simp [assocSet, h, lookupAssoc, ih]

theorem lookupAssoc_assocSet_ne {α : Type} (l : List (String × α)) (k g : String) (w : α)
    (h : k ≠ g) : lookupAssoc (assocSet l g w) k = lookupAssoc l k := by
  have hgk : ¬ g = k := fun he => h he.symm
  induction l with
  | nil => simp [assocSet, lookupAssoc, hgk]
  | cons kv rest ih =>
    obtain ⟨k2, v2⟩ := kv
    by_cases h2 : k2 = g
    · simp [assocSet, h2, lookupAssoc, hgk]
    · by_cases h3 : k2 = k
      · simp [assocSet, h2, lookupAssoc, h3, h]
      · simp [assocSet, h2, lookupAssoc, h3, ih]

theorem fieldNeedsUpdate_setVal_ne (obj : UObj) (f g : String) (v w : Val)
    (h : f ≠ g) : fieldNeedsUpdate (setVal obj g w) f v = fieldNeedsUpdate obj f v := by
  unfold fieldNeedsUpdate setVal
  simp only
  rw [lookupAssoc_assocSet_ne obj.vals f g w h]

theorem updateObjectLoop_spec :
    ∀ (ud : List (String × Val)) (obj : UObj) (dirty : List String),
      (ud.map Prod.fst).Nodup →
      (updateObjectLoop obj dirty ud).2 =
        dirty ++ (ud.filter (fun kv => fieldNeedsUpdate obj kv.1 kv.2)).map Prod.fst
      ∧ (∀ g, g ∉ ud.map Prod.fst →
          lookupAssoc (updateObjectLoop obj dirty ud).1.vals g = lookupAssoc obj.vals g)
      ∧ (∀ kv ∈ ud, fieldNeedsUpdate obj kv.1 kv.2 = false →
          lookupAssoc (updateObjectLoop obj dirty ud).1.vals kv.1 = lookupAssoc obj.vals kv.1)
      ∧ (∀ kv ∈ ud, fieldNeedsUpdate obj kv.1 kv.2 = true →
          lookupAssoc (updateObjectLoop obj dirty ud).1.vals kv.1 = some kv.2)
      ∧ ((∀ kv ∈ ud, fieldNeedsUpdate obj kv.1 kv.2 = false) →
          updateObjectLoop obj dirty ud = (obj, dirty)) := by
  intro ud
  induction ud with
  | nil =>
    intro obj dirty _
    refine ⟨by simp [updateObjectLoop], ?_, ?_, ?_, ?_⟩
    · intro g _; rfl
    · intro kv hkv; exact absurd hkv (List.not_mem_nil kv)
    · intro kv hkv; exact absurd hkv (List.not_mem_nil kv)
    · intro _; rfl
  | cons fv rest ih =>
    intro obj dirty hnodup
    obtain ⟨f, v⟩ := fv
    rw [List.map_cons, List.nodup_cons] at hnodup
    have hfnotin : f ∉ rest.map Prod.fst := hnodup.1
    have hrestnd : (rest.map Prod.fst).Nodup := hnodup.2
    have hne : ∀ kv, kv ∈ rest → kv.1 ≠ f := by
      intro kv hkv he
      exact hfnotin (he ▸ List.mem_map_of_mem Prod.fst hkv)
    by_cases h : fieldNeedsUpdate obj f v = true
    · have hstep : updateObjectLoop obj dirty ((f, v) :: rest) =
          updateObjectLoop (setVal obj f v) (dirty ++ [f]) rest := by
        simp [updateObjectLoop, h]
      have ihr := ih (setVal obj f v) (dirty ++ [f]) hrestnd
      have htransfer : ∀ kv ∈ rest,
          fieldNeedsUpdate (setVal obj f v) kv.1 kv.2 = fieldNeedsUpdate obj kv.1 kv.2 := by
        intro kv hkv
        exact fieldNeedsUpdate_setVal_ne obj kv.1 f kv.2 v (hne kv hkv)
      have hfiltereq : rest.filter (fun kv => fieldNeedsUpdate (setVal obj f v) kv.1 kv.2)
          = rest.filter (fun kv => fieldNeedsUpdate obj kv.1 kv.2) :=
        List.filter_congr htransfer
      refine ⟨?_, ?_, ?_, ?_, ?_⟩
      · rw [hstep, ihr.1, hfiltereq, List.filter_cons_of_pos (by simpa using h)]
        simp
      · intro g hg
        rw [List.map_cons, List.mem_cons] at hg
        push_neg at hg
        rw [hstep, ihr.2.1 g hg.2, setVal]
        exact lookupAssoc_assocSet_ne obj.vals g f v hg.1
      · intro kv hkv hfalse
        rcases List.mem_cons.mp hkv with heq | hmem
        · rw [heq] at hfalse
          rw [hfalse] at h
          exact absurd h (by simp)
        · rw [hstep, ihr.2.2.1 kv hmem (by rw [htransfer kv hmem]; exact hfalse), setVal]
          exact lookupAssoc_assocSet_ne obj.vals kv.1 f v (hne kv hmem)
      · intro kv hkv htrue
        rcases List.mem_cons.mp hkv with heq | hmem
        · rw [heq]
          rw [hstep, ihr.2.1 f hfnotin, setVal]
          exact lookupAssoc_assocSet_self obj.vals f v
        · rw [hstep]
          exact ihr.2.2.2.1 kv hmem (by rw [htransfer kv hmem]; exact htrue)
      · intro hall
        have := hall (f, v) (List.mem_cons_self (f, v) rest)
        rw [this] at h
        exact absurd h (by simp)
    · have hfalse : fieldNeedsUpdate obj f v = false := Bool.of_not_eq_true h
      have hstep : updateObjectLoop obj dirty ((f, v) :: rest) =
          updateObjectLoop obj dirty rest := by
        simp [updateObjectLoop, hfalse]
      have ihr := ih obj dirty hrestnd
      refine ⟨?_, ?_, ?_, ?_, ?_⟩
      · rw [hstep, ihr.1, List.filter_cons_of_neg (by simp [hfalse])]
      · intro g hg
        rw [List.map_cons, List.mem_cons] at hg
        push_neg at hg
        rw [hstep]
        exact ihr.2.1 g hg.2
      · intro kv hkv hf0
        rcases List.mem_cons.mp hkv with heq | hmem
        · rw [heq]
          rw [hstep]
          exact ihr.2.1 f hfnotin
        · rw [hstep]
          exact ihr.2.2.1 kv hmem hf0
      · intro kv hkv htrue
        rcases List.mem_cons.mp hkv with heq | hmem
        · rw [heq] at htrue
          rw [htrue] at hfalse
          exact absurd hfalse (by simp)
        · rw [hstep]
          exact ihr.2.2.2.1 kv hmem htrue
      · intro hall
        rw [hstep]
        exact ihr.2.2.2.2 (fun kv hkv => hall kv (List.mem_cons_of_mem (f, v) hkv))

/-- C4: update_object applies and marks as dirty exactly those candidate
fields whose new value differs from the object's current value under the
source's comparison (reference-typed fields compared by id against
_db_data without fetching): the dirty list is precisely the differing
candidates in order, unchanged candidates keep their stored value,
changed ones take the new value, and a payload identical to the current
stored values yields an empty dirty-field set and leaves the object
untouched. -/
theorem c4_update_dirty_exact :
    ∀ (obj : UObj) (ud : List (String × Val)),
      (ud.map Prod.fst).Nodup →
      (updateObject obj ud).2 =
        (ud.filter (fun kv => fieldNeedsUpdate obj kv.1 kv.2)).map Prod.fst
      ∧ (∀ kv ∈ ud, fieldNeedsUpdate obj kv.1 kv.2 = false →
          lookupAssoc (updateObject obj ud).1.vals kv.1 = lookupAssoc obj.vals kv.1)
      ∧ (∀ kv ∈ ud, fieldNeedsUpdate obj kv.1 kv.2 = true →
          lookupAssoc (updateObject obj ud).1.vals kv.1 = some kv.2)
      ∧ ((∀ kv ∈ ud, fieldNeedsUpdate obj kv.1 kv.2 = false) →
          updateObject obj ud = (obj, [])) := by
  intro obj ud hnd
  have h := updateObjectLoop_spec ud obj [] hnd
  exact ⟨by simpa using h.1, h.2.2.1, h.2.2.2.1, h.2.2.2.2⟩

/-- C4 witness: on uobjFix, the candidate dict built by get_object_dict
from a payload identical to the stored values (the reference payload
carrying the same referenced id) produces no dirty fields and leaves the
object unchanged, while a differing scalar payload dirties exactly that
field. -/
theorem c4_update_dirty_exact_witness :
    updateObject uobjFix
      (getObjectDict ["a", "r"] [] [("a", Val.vint 1), ("r", Val.vref 5)] ["a", "r"] true)
      = (uobjFix, [])
    ∧ (updateObject uobjFix [("a", Val.vint 2)]).2 = ["a"] := by
  constructor
  · exact (c4_update_dirty_exact uobjFix
      (getObjectDict ["a", "r"] [] [("a", Val.vint 1), ("r", Val.vref 5)] ["a", "r"] true)
      (by decide)).2.2.2 (by decide)
  · exact (c4_update_dirty_exact uobjFix [("a", Val.vint 2)] (by decide)).1

theorem collectFilters_ok (R : Resource) :
    ∀ params : List (String × String),
      (∀ kv ∈ params, compileParam R kv.1 kv.2 = Except.ok none ∨
        ∃ fr, compileParam R kv.1 kv.2 = Except.ok (some fr)) →
      collectFilters R params =
        Except.ok (params.filterMap (fun kv => okFrag (compileParam R kv.1 kv.2))) := by
  intro params
  induction params with
  | nil => intro _; rfl
  | cons kv rest ih =>
    intro hall
    have hrest := ih (fun p hp => hall p (List.mem_cons_of_mem kv hp))
    obtain ⟨k, v⟩ := kv
    rcases hall (k, v) (List.mem_cons_self (k, v) rest) with hc | ⟨fr, hc⟩
    · simp only [collectFilters, hc, hrest, List.filterMap_cons]
      simp only [okFrag, hc]
      rfl
    · simp only [collectFilters, hc, hrest, List.filterMap_cons]
      simp only [okFrag, hc]
      rfl

/-- C5: a raw filter parameter whose key matches no declared field under
the greedy longest-prefix scan, or whose resolved (field, suffix) pair
has no registered operator, or which requests negation of an operator
that disallows it, is silently skipped by apply_filters (its compilation
is Except.ok none, never an error); the remaining parameters still
compile and the result is the AND of their fragments, with an empty
fragment list yielding the empty always-true filter. -/
theorem c5_unmatched_params_skipped :
    (∀ (R : Resource) (key value : String), skipsParam R key = true →
      compileParam R key value = Except.ok none)
    ∧ (∀ (R : Resource) (params : List (String × String)),
      (∀ kv ∈ params, compileParam R kv.1 kv.2 = Except.ok none ∨
        ∃ fr, compileParam R kv.1 kv.2 = Except.ok (some fr)) →
      applyFilters R params =
        Except.ok (mkFilterOut (params.filterMap (fun kv => okFrag (compileParam R kv.1 kv.2)))))
    ∧ (∀ R : Resource, applyFilters R [] = Except.ok FilterOut.empty) := by
  refine ⟨?_, ?_, ?_⟩
  · intro R key value h
    unfold skipsParam at h
    unfold compileParam
    cases hp : parseParamKey R key with
    | none => simp
    | some quint =>
      obtain ⟨field, allowed, opName, negate, parts2⟩ := quint
      rw [hp] at h
      simp only at h ⊢
      cases hlk : lookupAssoc allowed opName with
      | none => simp
      | some op =>
        rw [hlk] at h
        simp only at h
        simp [h]
  · intro R params hall
    unfold applyFilters
    rw [collectFilters_ok R params hall]
    rfl
  · intro R
    rfl

/-- C5 witness on res5: an undeclared key, a declared field with no
empty-suffix operator, and a negation of the negation-disallowing Ne are
all skipped; the remaining firstname parameter still compiles and is the
only fragment of the resulting AND filter; the empty parameter set gives
the empty filter. -/
theorem c5_unmatched_params_skipped_witness :
    compileParam res5 "unknown" "x" = Except.ok none
    ∧ compileParam res5 "age" "3" = Except.ok none
    ∧ compileParam res5 "firstname__not__ne" "Bob" = Except.ok none
    ∧ applyFilters res5
        [("unknown", "x"), ("age", "3"), ("firstname__not__ne", "Bob"), ("firstname", "Alice")]
      = Except.ok (FilterOut.andFrags [("firstname", MVal.str "Alice")])
    ∧ applyFilters res5 [] = Except.ok FilterOut.empty := by
  refine ⟨?_, ?_, ?_, ?_, ?_⟩
  · exact c5_unmatched_params_skipped.1 res5 "unknown" "x" (by decide)
  · exact c5_unmatched_params_skipped.1 res5 "age" "3" (by decide)
  · exact c5_unmatched_params_skipped.1 res5 "firstname__not__ne" "Bob" (by decide)
  · exact c5_unmatched_params_skipped.2.1 res5
      [("unknown", "x"), ("age", "3"), ("firstname__not__ne", "Bob"), ("firstname", "Alice")]
      (by
        intro kv hkv
        simp only [List.mem_cons, List.not_mem_nil, or_false] at hkv
        rcases hkv with h | h | h | h
        · rw [h]; left; rfl
        · rw [h]; left; rfl
        · rw [h]; left; rfl
        · rw [h]; right; exact ⟨("firstname", MVal.str "Alice"), rfl⟩)
  · exact c5_unmatched_params_skipped.2.2 res5

theorem sortedRows_length {Row : Type} (store : Store Row) (o : Option (List String)) (l : List Row) :
    (sortedRows store o l).length = l.length := by
  cases o with
  | none => rfl
  | some ord => exact store.sortBy_length ord l

theorem getObjects_of_filters {Row : Type} (R : Resource) (m : ViewMethod) (store : Store Row)
    (params : List (String × String)) (f : FilterOut)
    (hf : applyFilters R params = Except.ok f) :
    getObjects R m store params = getObjectsCore R m store params f := by
  unfold getObjects
  rw [hf]
  rfl

theorem compileParam_undeclared_single (R : Resource) (k v : String)
    (hsp : splitUU k.data = [k])
    (hlk : lookupAssoc (compiledFilters R) k = none) :
    compileParam R k v = Except.ok none := by
  have hfind : findDeclaredField (compiledFilters R) [k] 2 = none := by
    simp [findDeclaredField, joinUU, hlk, List.take]
  have hparse : parseParamKey R k = none := by
    simp only [parseParamKey, hsp, List.length_cons, List.length_nil]
    rw [hfind]
  unfold compileParam
  rw [hparse]

theorem lookupAssoc_erasePaging (params : List (String × String)) (k : String)
    (h1 : k ≠ "_skip") (h2 : k ≠ "_limit") :
    lookupAssoc (erasePagingParams params) k = lookupAssoc params k := by
  induction params with
  | nil => rfl
  | cons kv rest ih =>
    obtain ⟨k2, v2⟩ := kv
    by_cases hks : k2 = "_skip"
    · subst hks
      have hdrop : erasePagingParams (("_skip", v2) :: rest) = erasePagingParams rest := by
        simp [erasePagingParams, List.filter]
      have hne : ¬ (("_skip" : String) = k) := fun he => h1 he.symm
      rw [hdrop, ih]
      simp [lookupAssoc, hne]
    · by_cases hkl : k2 = "_limit"
      · subst hkl
        have hdrop : erasePagingParams (("_limit", v2) :: rest) = erasePagingParams rest := by
          simp [erasePagingParams, List.filter]
        have hne : ¬ (("_limit" : String) = k) := fun he => h2 he.symm
        rw [hdrop, ih]
        simp [lookupAssoc, hne]
      · have hkeep : erasePagingParams ((k2, v2) :: rest) = (k2, v2) :: erasePagingParams rest := by
          simp [erasePagingParams, List.filter, hks, hkl]
        rw [hkeep]
        by_cases hkk : k2 = k
        · simp [lookupAssoc, hkk]
        · simp only [lookupAssoc, hkk, if_false]
          exact ih

theorem applyOrdering_erase (R : Resource) (params : List (String × String)) :
    applyOrdering R (erasePagingParams params) = applyOrdering R params := by
  unfold applyOrdering
  rw [lookupAssoc_erasePaging params "_order_by" (by decide) (by decide)]

theorem collectFilters_cons_none (R : Resource) (k v : String)
    (rest : List (String × String)) (hc : compileParam R k v = Except.ok none) :
    collectFilters R ((k, v) :: rest) = collectFilters R rest := by
  simp only [collectFilters, hc]
  cases hr : collectFilters R rest with
  | error e => rfl
  | ok l => rfl

theorem collectFilters_erase (R : Resource)
    (hs : lookupAssoc (compiledFilters R) "_skip" = none)
    (hl : lookupAssoc (compiledFilters R) "_limit" = none) :
    ∀ params, collectFilters R (erasePagingParams params) = collectFilters R params := by
  intro params
  induction params with
  | nil => rfl
  | cons kv rest ih =>
    obtain ⟨k, v⟩ := kv
    by_cases hks : k = "_skip"
    · subst hks
      have hc : compileParam R "_skip" v = Except.ok none :=
        compileParam_undeclared_single R "_skip" v (by decide) hs
      have hdrop : erasePagingParams (("_skip", v) :: rest) = erasePagingParams rest := by
        simp [erasePagingParams, List.filter]
      rw [hdrop, ih, collectFilters_cons_none R "_skip" v rest hc]
    · by_cases hkl : k = "_limit"
      · subst hkl
        have hc : compileParam R "_limit" v = Except.ok none :=
          compileParam_undeclared_single R "_limit" v (by decide) hl
        have hdrop : erasePagingParams (("_limit", v) :: rest) = erasePagingParams rest := by
          simp [erasePagingParams, List.filter]
        rw [hdrop, ih, collectFilters_cons_none R "_limit" v rest hc]
      · have hkeep : erasePagingParams ((k, v) :: rest) = (k, v) :: erasePagingParams rest := by
          simp [erasePagingParams, List.filter, hks, hkl]
        rw [hkeep]
        simp only [collectFilters, ih]

theorem applyFilters_erase (R : Resource)
    (hs : lookupAssoc (compiledFilters R) "_skip" = none)
    (hl : lookupAssoc (compiledFilters R) "_limit" = none)
    (params : List (String × String)) :
    applyFilters R (erasePagingParams params) = applyFilters R params := by
  unfold applyFilters
  rw [collectFilters_erase R hs hl params]

/-- C2: a bulk-update fetch ignores the requested pagination parameters
(_skip and _limit can be erased from the request without changing the
outcome, provided neither is a declared filter field) and uses the
resource's fixed bulk cap as its only limit; whenever the matched set
reaches the cap the fetched page fills it and get_objects returns the
bulk ValidationError instead of any objects, so no write can happen;
below the cap the page is returned with hasMore None. -/
theorem c2_bulk_cap {Row : Type} (R : Resource) (store : Store Row)
    (params : List (String × String)) (f : FilterOut)
    (hs : lookupAssoc (compiledFilters R) "_skip" = none)
    (hl : lookupAssoc (compiledFilters R) "_limit" = none)
    (hf : applyFilters R params = Except.ok f) :
    getObjects R ViewMethod.bulkUpdate store params
      = getObjects R ViewMethod.bulkUpdate store (erasePagingParams params)
    ∧ (((store.matching f).length : Int) ≥ R.bulkUpdateLimit →
        getObjects R ViewMethod.bulkUpdate store params
          = Except.error (errBulkLimit R.bulkUpdateLimit))
    ∧ (((store.matching f).length : Int) < R.bulkUpdateLimit →
        ∃ objs, getObjects R ViewMethod.bulkUpdate store params
          = Except.ok (objs, none, (store.matching f).length)
          ∧ (objs.length : Int) < R.bulkUpdateLimit) := by
  have hf2 : applyFilters R (erasePagingParams params) = Except.ok f := by
    rw [applyFilters_erase R hs hl params]
    exact hf
  have hsrt := sortedRows_length store (applyOrdering R params) (store.matching f)
  have hcore := getObjects_of_filters R ViewMethod.bulkUpdate store params f hf
  refine ⟨?_, ?_, ?_⟩
  · rw [hcore, getObjects_of_filters R ViewMethod.bulkUpdate store (erasePagingParams params) f hf2]
    unfold getObjectsCore
    rw [applyOrdering_erase R params]
  · intro hge
    rw [hcore]
    simp only [getObjectsCore]
    rw [if_pos]
    unfold pyLimit
    by_cases hc0 : R.bulkUpdateLimit = 0
    · rw [if_pos hc0, hsrt]
      omega
    · rw [if_neg hc0, List.length_take, hsrt]
      omega
  · intro hlt
    rw [hcore]
    simp only [getObjectsCore]
    have hc0 : ¬ R.bulkUpdateLimit = 0 := by
      intro h0
      rw [h0] at hlt
      omega
    have hlen : (pyLimit R.bulkUpdateLimit
        (sortedRows store (applyOrdering R params) (store.matching f))).length
        = (store.matching f).length := by
      unfold pyLimit
      rw [if_neg hc0, List.length_take, hsrt]
      omega
    refine ⟨pyLimit R.bulkUpdateLimit
      (sortedRows store (applyOrdering R params) (store.matching f)), ?_, ?_⟩
    · rw [if_neg]
      rw [hlen]
      omega
    · rw [hlen]
      exact hlt

/-- C2 witness: with four matching rows, a bulk cap of two refuses the
bulk fetch with the ValidationError (regardless of a supplied _limit),
while a bulk cap of ten returns all four rows with hasMore None. -/
theorem c2_bulk_cap_witness :
    getObjects resBulk2 ViewMethod.bulkUpdate storeFix [("_limit", "1")]
      = Except.error (errBulkLimit 2)
    ∧ ∃ objs, getObjects resBulk10 ViewMethod.bulkUpdate storeFix []
        = Except.ok (objs, none, 4) ∧ (objs.length : Int) < 10 := by
  constructor
  · exact (c2_bulk_cap resBulk2 storeFix [("_limit", "1")] FilterOut.empty rfl rfl rfl).2.1
      (by decide)
  · exact (c2_bulk_cap resBulk10 storeFix [] FilterOut.empty rfl rfl rfl).2.2 (by decide)

/-- C8 counterexample: on resNoPag (pagination disabled, max_limit 2)
the store matches four rows but get_objects returns only the first
three (max_limit + 1 rows are fetched and none are truncated), so an
unpaginated resource does not return every matching row; the _skip and
_limit params are indeed ignored (no skip is applied), which is the part
of the claim that does hold. -/
theorem c8_cx_unpaginated_capped :
    getObjects resNoPag ViewMethod.normal storeFix [("_skip", "3"), ("_limit", "1")]
      = Except.ok ([0, 1, 2], none, 4)
    ∧ (storeFix.matching FilterOut.empty).length = 4 := by
  exact ⟨rfl, rfl⟩

/-- C8 as amended: with pagination disabled, get_objects ignores the
_skip and _limit request parameters entirely (erasing them changes
nothing, provided neither is a declared filter field) and returns the
first max_limit + 1 matching rows with hasMore None and the full count;
every matching row is returned exactly when the matching count is at
most max_limit + 1, not unconditionally. -/
theorem c8_amended_unpaginated {Row : Type} (R : Resource) (store : Store Row)
    (params : List (String × String)) (f : FilterOut)
    (hp : R.paginate = false)
    (hmax : 0 ≤ R.maxLimit)
    (hs : lookupAssoc (compiledFilters R) "_skip" = none)
    (hl : lookupAssoc (compiledFilters R) "_limit" = none)
    (hf : applyFilters R params = Except.ok f) :
    getObjects R ViewMethod.normal store params
      = getObjects R ViewMethod.normal store (erasePagingParams params)
    ∧ ∃ objs, getObjects R ViewMethod.normal store params
        = Except.ok (objs, none, (store.matching f).length)
        ∧ objs.length = min (R.maxLimit.toNat + 1) (store.matching f).length := by
  have hf2 : applyFilters R (erasePagingParams params) = Except.ok f := by
    rw [applyFilters_erase R hs hl params]
    exact hf
  have hsl : getSkipAndLimit R params = Except.ok (0, R.maxLimit) := by
    unfold getSkipAndLimit
    rw [hp]
    rfl
  have hsl2 : getSkipAndLimit R (erasePagingParams params) = Except.ok (0, R.maxLimit) := by
    unfold getSkipAndLimit
    rw [hp]
    rfl
  have hsrt := sortedRows_length store (applyOrdering R params) (store.matching f)
  constructor
  · rw [getObjects_of_filters R ViewMethod.normal store params f hf,
      getObjects_of_filters R ViewMethod.normal store (erasePagingParams params) f hf2]
    unfold getObjectsCore
    rw [applyOrdering_erase R params, hsl, hsl2]
  · rw [getObjects_of_filters R ViewMethod.normal store params f hf]
    simp only [getObjectsCore, hsl, hp]
    have hne : ¬ (R.maxLimit + 1 = 0) := by omega
    have hlen : (pyLimit (R.maxLimit + 1)
        (pySkip 0 (sortedRows store (applyOrdering R params) (store.matching f)))).length
        = min (R.maxLimit.toNat + 1) (store.matching f).length := by
      unfold pyLimit pySkip
      rw [if_neg hne, List.length_take, List.length_drop, hsrt]
      have : (R.maxLimit + 1).natAbs = R.maxLimit.toNat + 1 := by omega
      rw [this]
      omega
    exact ⟨_, by simp, hlen⟩

/-- C8 amended witness: on resNoPag with four matching rows, erasing the
_skip parameter changes nothing and the returned page has
min (max_limit + 1) 4 = 3 rows with hasMore None. -/
theorem c8_amended_unpaginated_witness :
    getObjects resNoPag ViewMethod.normal storeFix [("_skip", "3")]
      = getObjects resNoPag ViewMethod.normal storeFix (erasePagingParams [("_skip", "3")])
    ∧ ∃ objs, getObjects resNoPag ViewMethod.normal storeFix [("_skip", "3")]
        = Except.ok (objs, none, (storeFix.matching FilterOut.empty).length)
        ∧ objs.length = min (resNoPag.maxLimit.toNat + 1) (storeFix.matching FilterOut.empty).length := by
  exact c8_amended_unpaginated resNoPag storeFix [("_skip", "3")] FilterOut.empty rfl
    (by decide) rfl rfl rfl

/-- C1: for a paginated non-bulk fetch whose validated skip and limit
are S and L (L non-negative), get_objects asks the store for L + 1 rows
past the skip offset, truncates the probe row, and returns at most L
items together with the total count; the returned hasMore flag is true
exactly when more than L matching rows exist beyond the skip offset. -/
theorem c1_pagination_invariant {Row : Type} (R : Resource) (store : Store Row)
    (params : List (String × String)) (f : FilterOut) (S L : Int)
    (hp : R.paginate = true)
    (hf : applyFilters R params = Except.ok f)
    (hsl : getSkipAndLimit R params = Except.ok (S, L))
    (hL : 0 ≤ L) :
    ∃ (objs : List Row) (hm : Bool),
      getObjects R ViewMethod.normal store params
        = Except.ok (objs, some hm, (store.matching f).length)
      ∧ (objs.length : Int) ≤ L
      ∧ (hm = true ↔ L.toNat + S.toNat < (store.matching f).length) := by
  rw [getObjects_of_filters R ViewMethod.normal store params f hf]
  simp only [getObjectsCore, hsl, hp, if_true]
  have hsrt := sortedRows_length store (applyOrdering R params) (store.matching f)
  have hne : ¬ (L + 1 = 0) := by omega
  have hlen : (pyLimit (L + 1)
      (pySkip S (sortedRows store (applyOrdering R params) (store.matching f)))).length
      = min (L.toNat + 1) ((store.matching f).length - S.toNat) := by
    unfold pyLimit pySkip
    rw [if_neg hne, List.length_take, List.length_drop, hsrt]
    have : (L + 1).natAbs = L.toNat + 1 := by omega
    rw [this]
  by_cases hmore : ((pyLimit (L + 1)
      (pySkip S (sortedRows store (applyOrdering R params) (store.matching f)))).length : Int) > L
  · have hd : decide (((pyLimit (L + 1)
        (pySkip S (sortedRows store (applyOrdering R params) (store.matching f)))).length : Int) > L)
        = true := decide_eq_true hmore
    rw [hd]
    refine ⟨_, true, rfl, ?_, ?_⟩
    · rw [if_pos rfl, List.length_dropLast, hlen]
      rw [hlen] at hmore
      omega
    · rw [hlen] at hmore
      constructor
      · intro _
        omega
      · intro _
        rfl
  · have hd : decide (((pyLimit (L + 1)
        (pySkip S (sortedRows store (applyOrdering R params) (store.matching f)))).length : Int) > L)
        = false := decide_eq_false hmore
    rw [hd]
    refine ⟨_, false, rfl, ?_, ?_⟩
    · rw [if_neg (by simp)]
      omega
    · rw [hlen] at hmore
      simp only [Bool.false_eq_true, false_iff]
      omega

/-- C1 witness: on the default resource with _limit 2 over four matching
rows, get_objects returns at most two items and hasMore is true exactly
because more than two rows exist past the zero skip offset. -/
theorem c1_pagination_invariant_witness :
    ∃ (objs : List Nat) (hm : Bool),
      getObjects resFix ViewMethod.normal storeFix [("_limit", "2")]
        = Except.ok (objs, some hm, (storeFix.matching FilterOut.empty).length)
      ∧ (objs.length : Int) ≤ 2
      ∧ (hm = true ↔ (2 : Int).toNat + (0 : Int).toNat < (storeFix.matching FilterOut.empty).length) := by
  exact c1_pagination_invariant resFix storeFix [("_limit", "2")] FilterOut.empty 0 2
    rfl rfl rfl (by decide)

end FlaskUMongoRest
